import Mathlib

/-!
Verification of the download-wait-and-relocate core of `sbfi-knime-utils`.

The development shallowly embeds `sbfi_knime_utils/chrome_utils.py`
(`wait_download_file`) and the repository's in-memory structured `Logger`.
Python strings are modelled as Lean `String`s; `str.lower` is modelled with
the ASCII `Char.toLower` (the inputs of interest are ASCII).  Machine-level
filesystem calls (`os.listdir`, `os.path.isfile`, `shutil.move`, `os.remove`,
`os.makedirs`) are modelled by an explicit environment (`WaitEnv`) describing
what the filesystem does at each polling pass, and an explicit two-directory
state (`FsState`).  The floating accumulation `waiting_time += 0.2` is
modelled with exact arithmetic (one fifth per empty pass).
-/

namespace SbfiKnimeUtils

/-! Python string primitives. -/

/-- Model of Python `str.lower` (ASCII; `Char.toLower` only maps `A`-`Z`). -/
def pyLower (s : String) : String := String.mk (s.data.map Char.toLower)

/-- Model of Python `str.startswith`. -/
def pyStartswith (s p : String) : Bool := p.data.isPrefixOf s.data

/-- Model of Python `str.endswith`. -/
def pyEndswith (s p : String) : Bool := p.data.isSuffixOf s.data

/-- Model of Python `str.lstrip('.')`: drop every leading dot. -/
def pyLstripDot (s : String) : String :=
  String.mk (s.data.dropWhile (fun c => c == '.'))

/-- The extension normalization performed by `wait_download_file` line 94:
`extension.lstrip('.').lower()`. -/
def normalizeExt (extension : String) : String := pyLower (pyLstripDot extension)

/-- Model of POSIX `os.path.join` on two components. -/
def os_path_join (a b : String) : String :=
  if pyStartswith b "/" then b
  else if a = "" then b
  else if pyEndswith a "/" then a ++ b
  else a ++ "/" ++ b

/-- Model of POSIX `os.path.isabs`. -/
def os_path_isabs (p : String) : Bool := pyStartswith p "/"

/-- Split a character list at the first character satisfying `p`, returning
the part before and the part after (the matching character removed). -/
def breakAtFirst (p : Char → Bool) : List Char → Option (List Char × List Char)
  | [] => none
  | c :: cs =>
    if p c then some ([], cs)
    else (breakAtFirst p cs).map (fun ab => (c :: ab.1, ab.2))

/-- Model of Python `s.rsplit(".", 1)`: split at the last dot when there is
one (two components), otherwise return the whole string (one component). -/
def pyRsplitDot (s : String) : List String :=
  match breakAtFirst (fun c => c == '.') s.data.reverse with
  | none => [s]
  | some ab => [String.mk ab.2.reverse, String.mk ab.1.reverse]

/-- A single (ASCII) quote character, written via its code point. -/
def quoteChar : Char := Char.ofNat 39

/-- Nominal model of Python `repr` for the simple file-name strings logged by
`wait_download_file` (no escaping modelled). -/
def pyStrRepr (s : String) : String :=
  String.mk (quoteChar :: s.data) ++ String.mk [quoteChar]

/-- Nominal model of Python `repr` of a list of strings, as interpolated by
the f-string on line 118 of `chrome_utils.py`. -/
def pyListRepr (l : List String) : String :=
  "[" ++ String.intercalate ", " (l.map pyStrRepr) ++ "]"

/-! Data model for `wait_download_file` (`chrome_utils.py`, lines 62-177). -/

/-- One log entry as produced during a `wait_download_file` run (the entries
the supplied `Logger` would receive, in order; timestamps are added by the
`Logger` itself and are not observable through this function). -/
structure LogMsg where
  function : String
  message : String
  isError : Bool
deriving DecidableEq

/-- The kinds of Python exceptions `wait_download_file` can raise:
`ValueError` (invalid arguments), `OSError` (filesystem failures),
`TimeoutError`, plus the `ValueError` a failed 2-tuple unpacking of
`rsplit` would raise on line 124 (shown unreachable, claim C10). -/
inductive WaitError where
  | invalidArg (msg : String)
  | ioError (msg : String)
  | timeout (msg : String)
  | unpackError
deriving DecidableEq

/-- State of the two directories the routine mutates: names of the files in
`folder_to_check`, and for `folder_storage` an association from destination
file name to the source path last moved onto it (so that overwriting is
observable). -/
structure FsState where
  watch : List String
  storage : List (String × String)
deriving DecidableEq

/-- What a path names on the filesystem before the call. -/
inductive PathKind where
  | absent
  | file
  | dir
deriving DecidableEq

/-- Environment abstracting the filesystem collaborator:
`watchKind`/`storageKind` describe the two folder paths before the call;
`createFails` gives the cause when creating a missing directory fails
(permissions etc.); `watchAt n` is what `os.listdir(folder_to_check)`
returns at polling pass `n` (files arrive from the outside);
`isFile p` models `os.path.isfile(p)` for listed entries; `storage0` is the
initial storage association; `moveFails f` gives the `OSError` cause when
`shutil.move` of entry `f` fails; `keepsSource f` models a copy-semantics
mover that leaves the source behind after a successful move (the defensive
`os.path.exists` check on line 149); `removeFails f` gives the cause when
`os.remove` of entry `f` fails. -/
structure WaitEnv where
  watchKind : PathKind
  storageKind : PathKind
  createFails : String → Option String
  watchAt : Nat → List String
  isFile : String → Bool
  storage0 : List (String × String)
  moveFails : String → Option String
  keepsSource : String → Bool
  removeFails : String → Option String

deriving instance DecidableEq for Except

/-- Result of a `wait_download_file` run: the returned value or raised
error, the log entries appended to the supplied logger, and the final
directory state (unchanged by runs that fail before processing). -/
structure WaitOutcome where
  result : Except WaitError (List (List String))
  log : List LogMsg
  fs : FsState
deriving DecidableEq

/-- Model of `os.makedirs(path, exist_ok=True)`: returns the raised error
message, if any.  If the path already names a directory, `exist_ok`
suppresses the `FileExistsError`; if it names a non-directory, CPython
re-raises `FileExistsError` (an `OSError`) even with `exist_ok=True`; if it
is absent, creation succeeds unless the environment says it fails.  The
message text of OS exceptions is modelled nominally. -/
def os_makedirs (kind : PathKind) (path : String) (createFails : Option String) :
    Option String :=
  match kind with
  | .dir => none
  | .file => some ("File exists: " ++ path)
  | .absent => createFails

/-- The single conditional log emission `if logger: logger.log(...)`. -/
def logIf (hasLogger : Bool) (function message : String) (isError : Bool) :
    List LogMsg :=
  if hasLogger then [⟨function, message, isError⟩] else []

/-- The listing-and-filter of lines 109-112: entries of the watched folder at
pass `n` that are regular files and whose lowercased name ends with
`"." ++ ext` (with `ext` already normalized). -/
def matchingFiles (env : WaitEnv) (folder_to_check ext : String) (n : Nat) :
    List String :=
  (env.watchAt n).filter (fun f =>
    env.isFile (os_path_join folder_to_check f) && pyEndswith (pyLower f) ("." ++ ext))

/-- Overwriting update of the storage association: `shutil.move` onto an
existing destination replaces it. -/
def storageSet (storage : List (String × String)) (name src : String) :
    List (String × String) :=
  storage.filter (fun p => !(p.1 == name)) ++ [(name, src)]

/-- Line 126, `replace_filename if replace_filename else
downloaded_file_name`: Python truthiness, so both `None` and the empty
string fall back to the lowercased base name. -/
def pyOrElse (replace_filename : Option String) (name : String) : String :=
  match replace_filename with
  | some r => if r = "" then name else r
  | none => name

/-- The per-file processing loop of lines 122-163, over the matched names of
one pass, threading directory state, log, and the accumulated result list.
A move failure logs (when a logger is attached) and re-raises immediately; a
remove failure after a successful move logs and is swallowed. -/
def processFiles (env : WaitEnv) (folder_to_check folder_storage : String)
    (replace_filename : Option String) (hasLogger : Bool) :
    List String → FsState → List LogMsg → List (List String) → WaitOutcome
  | [], st, log, acc => ⟨.ok acc, log, st⟩
  | f :: rest, st, log, acc =>
    let src := os_path_join folder_to_check f
    match pyRsplitDot (pyLower f) with
    | [name, fext] =>
      let new_file_name := pyOrElse replace_filename name
      let dstName := new_file_name ++ "." ++ fext
      let dst := os_path_join folder_storage dstName
      match env.moveFails f with
      | some cause =>
        ⟨.error (.ioError cause),
         log ++ logIf hasLogger "wait_download_file"
           ("Failed to move file " ++ src ++ ": " ++ cause) true,
         st⟩
      | none =>
        let watch1 := if env.keepsSource f then st.watch else st.watch.erase f
        let st1 : FsState := ⟨watch1, storageSet st.storage dstName src⟩
        let log1 := log ++ logIf hasLogger "wait_download_file"
          ("Moved file from " ++ src ++ " to " ++ dst) false
        let acc1 := acc ++ [[new_file_name, dst, fext]]
        if st1.watch.contains f then
          match env.removeFails f with
          | some cause =>
            processFiles env folder_to_check folder_storage replace_filename hasLogger
              rest st1
              (log1 ++ logIf hasLogger "wait_download_file"
                ("Failed to remove file " ++ src ++ ": " ++ cause) true)
              acc1
          | none =>
            processFiles env folder_to_check folder_storage replace_filename hasLogger
              rest ⟨st1.watch.erase f, st1.storage⟩
              (log1 ++ logIf hasLogger "wait_download_file"
                ("Removed file: " ++ src) false)
              acc1
        else
          processFiles env folder_to_check folder_storage replace_filename hasLogger
            rest st1 log1 acc1
    | _ => ⟨.error .unpackError, log, st⟩

/-- Number of listing passes the Python loop performs before raising
`TimeoutError` when no match ever appears: `waiting_time` grows by `0.2` per
empty pass (modelled exactly) and the loop raises at the first pass count
`k ≥ 1` with `k / 5 ≥ max_waiting_download`, i.e. at pass
`max 1 (5 * max_waiting_download)` (one pass when the bound is `≤ 0`). -/
def timeoutPasses (max_waiting_download : Int) : Nat :=
  Nat.max 1 (5 * max_waiting_download).toNat

/-- The polling loop of lines 108-177.  `n` is the current pass index and
`rem` the number of further empty passes allowed before the accumulated
`waiting_time` reaches `max_waiting_download` (counting the remaining budget
down is equivalent to accumulating `0.2` up, and keeps the recursion
structural). -/
def waitLoop (env : WaitEnv) (folder_to_check ext folder_storage : String)
    (replace_filename : Option String) (max_waiting_download : Int)
    (hasLogger : Bool) : Nat → Nat → WaitOutcome
  | n, rem =>
    match matchingFiles env folder_to_check ext n with
    | [] =>
      match rem with
      | 0 =>
        ⟨.error (.timeout "Timeout waiting for download"),
         logIf hasLogger "wait_download_file"
           ("Timeout waiting for download after " ++
             toString max_waiting_download ++ " seconds") true,
         ⟨env.watchAt n, env.storage0⟩⟩
      | rem' + 1 =>
        waitLoop env folder_to_check ext folder_storage replace_filename
          max_waiting_download hasLogger (n + 1) rem'
    | f :: fs =>
      processFiles env folder_to_check folder_storage replace_filename hasLogger
        (f :: fs) ⟨env.watchAt n, env.storage0⟩
        (logIf hasLogger "wait_download_file"
          ("Found downloaded files: " ++ pyListRepr (f :: fs)) false)
        []

/-- Shallow embedding of `wait_download_file` (`chrome_utils.py` lines
62-177).  Argument order follows the source; `hasLogger` states whether the
optional `logger` argument was supplied.  On paths that raise before the
processing pass, the filesystem is left as the outside world has it. -/
def wait_download_file (env : WaitEnv) (folder_to_check extension folder_storage : String)
    (replace_filename : Option String) (max_waiting_download : Int)
    (hasLogger : Bool) : WaitOutcome :=
  if folder_to_check = "" ∨ folder_storage = "" then
    ⟨.error (.invalidArg "Folder paths cannot be empty"), [], ⟨env.watchAt 0, env.storage0⟩⟩
  else if extension = "" then
    ⟨.error (.invalidArg "Extension cannot be empty"), [], ⟨env.watchAt 0, env.storage0⟩⟩
  else
    let ext := normalizeExt extension
    match os_makedirs env.watchKind folder_to_check (env.createFails folder_to_check) with
    | some e =>
      ⟨.error (.ioError ("Failed to create folders: " ++ e)), [],
       ⟨env.watchAt 0, env.storage0⟩⟩
    | none =>
      match os_makedirs env.storageKind folder_storage (env.createFails folder_storage) with
      | some e =>
        ⟨.error (.ioError ("Failed to create folders: " ++ e)), [],
         ⟨env.watchAt 0, env.storage0⟩⟩
      | none =>
        -- Both `os.makedirs` calls succeeded, so both paths now name
        -- directories; the `if not os.path.isdir(...)` check of lines
        -- 102-103 therefore always passes (it could only fail when a path
        -- names a non-directory, in which case `os.makedirs` raised above).
        if (PathKind.dir = PathKind.dir ∧ PathKind.dir = PathKind.dir) then
          waitLoop env folder_to_check ext folder_storage replace_filename
            max_waiting_download hasLogger 0 (timeoutPasses max_waiting_download - 1)
        else
          ⟨.error (.invalidArg "Invalid folder paths"), [],
           ⟨env.watchAt 0, env.storage0⟩⟩

/-! The Logger.  The repository file `sbfi_knime_utils/logger.py` is not
present under `src/` (only its tests, `tests/test_logger.py`, and its
callers are), so the component is modelled from the spec, sections 3 and
4.1. -/

/-- Modelled from the spec: a `LogEntry` of the missing `logger.py` —
`{timestamp: instant, function: string, message: string, isError: boolean}`,
immutable once appended.  Instants are modelled as natural clock readings. -/
structure PyLogEntry where
  timestamp : Nat
  function : String
  message : String
  isError : Bool
deriving DecidableEq

/-- Modelled from the spec: the `Logger` class of the missing `logger.py`,
owning an ordered, append-only, insertion-order-preserving sequence of
`LogEntry`. -/
structure Logger where
  entries : List PyLogEntry
deriving DecidableEq

/-- A fresh `Logger()` with zero entries. -/
def Logger.empty : Logger := ⟨[]⟩

/-- Modelled from the spec: `Logger.log(function, message, isError)` of the
missing `logger.py` appends one entry carrying the current timestamp (passed
in here as `now`); no validation, always succeeds. -/
def Logger.log (l : Logger) (now : Nat) (function message : String)
    (isErr : Bool) : Logger :=
  ⟨l.entries ++ [⟨now, function, message, isErr⟩]⟩

/-- The tabular projection returned by `get_log_dataframe`: a fixed column
schema and one row per entry.  The `Date` cell is nullable, as in a
dataframe. -/
structure LogFrame where
  columns : List String
  rows : List (Option Nat × String × String × Bool)
deriving DecidableEq

/-- Modelled from the spec: `Logger.get_log_dataframe()` of the missing
`logger.py` returns all entries as rows with columns
`[Date, Function, Message, IsError]` in that order, in append order; on a
fresh logger, zero rows but the same four-column schema. -/
def Logger.get_log_dataframe (l : Logger) : LogFrame :=
  ⟨["Date", "Function", "Message", "IsError"],
   l.entries.map (fun e => (some e.timestamp, e.function, e.message, e.isError))⟩

/-! Concrete environments used by witnesses and counterexamples. -/

/-- A healthy filesystem: both folder paths already name directories, every
listing of the watched folder returns `files` (all regular files), the
storage starts empty, and every move/remove succeeds with move semantics. -/
def okEnv (files : List String) : WaitEnv :=
  ⟨.dir, .dir, fun _ => none, fun _ => files, fun _ => true, [],
   fun _ => none, fun _ => false, fun _ => none⟩

/-! Helper lemmas about the string model. -/

theorem data_append (a b : String) : (a ++ b).data = a.data ++ b.data := rfl

theorem str_eq_of_data_eq {a b : String} (h : a.data = b.data) : a = b := by
  cases a
  cases b
  exact congrArg String.mk h

theorem isPrefixOf_exists : ∀ {l₁ l₂ : List Char},
    l₁.isPrefixOf l₂ = true → ∃ t, l₂ = l₁ ++ t := by
  intro l₁
  induction l₁ with
  | nil => exact fun h => ⟨_, rfl⟩
  | cons a as ih =>
    intro l₂ h
    cases l₂ with
    | nil => simp [List.isPrefixOf] at h
    | cons b bs =>
      simp only [List.isPrefixOf, Bool.and_eq_true, beq_iff_eq] at h
      obtain ⟨t, ht⟩ := ih h.2
      exact ⟨t, by simp [h.1, ht]⟩

theorem isSuffixOf_exists {l₁ l₂ : List Char} (h : l₁.isSuffixOf l₂ = true) :
    ∃ t, l₂ = t ++ l₁ := by
  obtain ⟨t, ht⟩ := isPrefixOf_exists (h : l₁.reverse.isPrefixOf l₂.reverse = true)
  refine ⟨t.reverse, ?_⟩
  have := congrArg List.reverse ht
  simpa using this

theorem pyEndswith_exists {s p : String} (h : pyEndswith s p = true) :
    ∃ t, s.data = t ++ p.data :=
  isSuffixOf_exists h

theorem startswith_slash_append {a : String} (b : String)
    (h : pyStartswith a "/" = true) : pyStartswith (a ++ b) "/" = true := by
  unfold pyStartswith at h ⊢
  obtain ⟨t, ht⟩ := isPrefixOf_exists h
  rw [data_append, ht]
  simp [List.isPrefixOf]

theorem char_toLower_eq_dot {c : Char} (h : Char.toLower c = '.') : c = '.' := by
  have h' : (if Char.toNat c ≥ 65 ∧ Char.toNat c ≤ 90 then
      Char.ofNat (Char.toNat c + 32) else c) = '.' := h
  clear h
  rename' h' => h
  split at h
  · exfalso
    rename_i hc
    have hv : Nat.isValidChar (Char.toNat c + 32) := Or.inl (by omega)
    have h2 := congrArg Char.toNat h
    rw [Char.ofNat, dif_pos hv] at h2
    have h3 : Char.toNat (Char.ofNatAux (Char.toNat c + 32) hv) = Char.toNat c + 32 := rfl
    rw [h3] at h2
    have h4 : Char.toNat ('.') = 46 := rfl
    omega
  · exact h

theorem dropWhile_dot_map_toLower : ∀ {l₁ l₂ : List Char},
    l₁.map Char.toLower = l₂.map Char.toLower →
    (l₁.dropWhile (fun c => c == '.')).map Char.toLower
      = (l₂.dropWhile (fun c => c == '.')).map Char.toLower := by
  intro l₁
  induction l₁ with
  | nil =>
    intro l₂ h
    cases l₂ <;> simp_all
  | cons a t ih =>
    intro l₂ h
    cases l₂ with
    | nil => simp at h
    | cons b t₂ =>
      simp only [List.map_cons, List.cons.injEq] at h
      obtain ⟨hab, ht⟩ := h
      by_cases hd : a = '.'
      · have hb : b = '.' := char_toLower_eq_dot (by rw [← hab, hd]; rfl)
        subst hd
        subst hb
        simp only [List.dropWhile, beq_self_eq_true]
        exact ih ht
      · have hb : b ≠ '.' := fun hbe => hd (char_toLower_eq_dot (by rw [hab, hbe]; rfl))
        simp only [List.dropWhile, beq_eq_false_iff_ne.mpr hd, beq_eq_false_iff_ne.mpr hb]
        simp [hab, ht]

theorem pyLower_data (s : String) : (pyLower s).data = s.data.map Char.toLower := rfl

theorem normalizeExt_congr_lower {e₁ e₂ : String} (h : pyLower e₁ = pyLower e₂) :
    normalizeExt e₁ = normalizeExt e₂ := by
  have hd : e₁.data.map Char.toLower = e₂.data.map Char.toLower := by
    have := congrArg String.data h
    simpa [pyLower_data] using this
  apply str_eq_of_data_eq
  show (e₁.data.dropWhile (fun c => c == '.')).map Char.toLower
    = (e₂.data.dropWhile (fun c => c == '.')).map Char.toLower
  exact dropWhile_dot_map_toLower hd

theorem normalizeExt_dot (e : String) : normalizeExt ("." ++ e) = normalizeExt e := by
  apply str_eq_of_data_eq
  show ((("." ++ e).data).dropWhile (fun c => c == '.')).map Char.toLower
    = ((e.data).dropWhile (fun c => c == '.')).map Char.toLower
  rw [data_append]
  simp [List.dropWhile]

theorem pyLower_eq_empty_iff {e : String} : pyLower e = "" ↔ e = "" := by
  constructor
  · intro h
    have := congrArg String.data h
    simp only [pyLower_data] at this
    have hnil : e.data = [] := by
      cases hd : e.data with
      | nil => rfl
      | cons c t => rw [hd] at this; simp at this
    exact str_eq_of_data_eq (by simp [hnil])
  · intro h
    subst h
    rfl

theorem breakAtFirst_isSome {p : Char → Bool} : ∀ {l : List Char},
    (∃ c ∈ l, p c = true) → (breakAtFirst p l).isSome = true := by
  intro l
  induction l with
  | nil =>
    rintro ⟨c, hc, _⟩
    simp at hc
  | cons a t ih =>
    rintro ⟨c, hc, hpc⟩
    simp only [breakAtFirst]
    by_cases ha : p a = true
    · simp [ha]
    · rw [if_neg ha]
      rcases List.mem_cons.mp hc with h | h
      · exact absurd (h ▸ hpc) ha
      · have := ih ⟨c, h, hpc⟩
        cases hbr : breakAtFirst p t with
        | none => rw [hbr] at this; simp at this
        | some ab => simp [hbr]

theorem pyRsplitDot_two_of_endswith {s ext : String}
    (h : pyEndswith s ("." ++ ext) = true) :
    ∃ a b, pyRsplitDot s = [a, b] := by
  obtain ⟨t, ht⟩ := pyEndswith_exists h
  have hdotstr : (("." : String)).data = ['.'] := rfl
  have hdot : ('.') ∈ s.data := by
    rw [ht, data_append, hdotstr]
    exact List.mem_append.mpr (Or.inr (List.mem_cons_self _ _))
  have hsome := breakAtFirst_isSome (p := fun c => c == '.') (l := s.data.reverse)
    ⟨'.', by simpa using hdot, by simp⟩
  unfold pyRsplitDot
  cases hbr : breakAtFirst (fun c => c == '.') s.data.reverse with
  | none => rw [hbr] at hsome; simp at hsome
  | some ab => exact ⟨_, _, rfl⟩

theorem matchingFiles_endswith {env : WaitEnv} {ftc ext : String} {n : Nat}
    {f : String} (hf : f ∈ matchingFiles env ftc ext n) :
    pyEndswith (pyLower f) ("." ++ ext) = true := by
  have h2 := (List.mem_filter.mp hf).2
  simp only [Bool.and_eq_true] at h2
  exact h2.2

theorem processFiles_ne_unpack (env : WaitEnv) (ftc fs : String)
    (rf : Option String) (lg : Bool) :
    ∀ files st log acc, (∀ f ∈ files, ∃ a b, pyRsplitDot (pyLower f) = [a, b]) →
    (processFiles env ftc fs rf lg files st log acc).result ≠ .error .unpackError := by
  intro files
  induction files with
  | nil =>
    intro st log acc _
    simp [processFiles]
  | cons f rest ih =>
    intro st log acc h
    obtain ⟨a, b, hab⟩ := h f (List.mem_cons_self _ _)
    have hrest := fun g hg => h g (List.mem_cons_of_mem _ hg)
    have hr : ∀ st' log' acc',
        (processFiles env ftc fs rf lg rest st' log' acc').result ≠ .error .unpackError :=
      fun st' log' acc' => ih st' log' acc' hrest
    simp only [processFiles, hab]
    cases hmv : env.moveFails f with
    | some cause => simp
    | none =>
      cases hks : env.keepsSource f with
      | false =>
        simp only [hks, Bool.false_eq_true, ite_false]
        by_cases hc : (st.watch.erase f).contains f = true
        · rw [if_pos hc]
          cases hrm : env.removeFails f with
          | none => simp only [hrm]; apply hr
          | some c2 => simp only [hrm]; apply hr
        · rw [if_neg hc]
          apply hr
      | true =>
        simp only [hks, ite_true]
        by_cases hc : st.watch.contains f = true
        · rw [if_pos hc]
          cases hrm : env.removeFails f with
          | none => simp only [hrm]; apply hr
          | some c2 => simp only [hrm]; apply hr
        · rw [if_neg hc]
          apply hr

theorem waitLoop_timeout (env : WaitEnv) (ftc ext fs : String)
    (rf : Option String) (mx : Int) (lg : Bool)
    (hnm : ∀ n, matchingFiles env ftc ext n = []) :
    ∀ rem n, waitLoop env ftc ext fs rf mx lg n rem =
      ⟨.error (.timeout "Timeout waiting for download"),
       logIf lg "wait_download_file"
         ("Timeout waiting for download after " ++ toString mx ++ " seconds") true,
       ⟨env.watchAt (n + rem), env.storage0⟩⟩ := by
  intro rem
  induction rem with
  | zero =>
    intro n
    simp [waitLoop, hnm n]
  | succ rem' ih =>
    intro n
    simp only [waitLoop, hnm n]
    rw [show n + (rem' + 1) = (n + 1) + rem' from by omega]
    exact ih (n + 1)

/-- The shape of every result entry produced by the processing pass: some
matched file `f` whose lowercased name splits at the last dot into `a` and
`b`, reported as target name (`replace_filename` when truthy, else the base
`a`), joined destination path, and extension `b`. -/
def entryShape (fs : String) (rf : Option String) (r : List String) : Prop :=
  ∃ f a b, pyRsplitDot (pyLower f) = [a, b] ∧
    r = [pyOrElse rf a, os_path_join fs (pyOrElse rf a ++ "." ++ b), b]

theorem processFiles_shape (env : WaitEnv) (ftc fs : String)
    (rf : Option String) (lg : Bool) :
    ∀ files st log acc out, (∀ r ∈ acc, entryShape fs rf r) →
      (processFiles env ftc fs rf lg files st log acc).result = .ok out →
      ∀ r ∈ out, entryShape fs rf r := by
  intro files
  induction files with
  | nil =>
    intro st log acc out hacc hout
    simp only [processFiles] at hout
    injection hout with h
    exact h ▸ hacc
  | cons f rest ih =>
    intro st log acc out hacc hout
    rcases hsplit : pyRsplitDot (pyLower f) with _ | ⟨a, _ | ⟨b, _ | ⟨c, tl⟩⟩⟩
    · simp [processFiles, hsplit] at hout
    · simp [processFiles, hsplit] at hout
    · have hacc1 : ∀ r ∈ acc ++ [[pyOrElse rf a, os_path_join fs (pyOrElse rf a ++ "." ++ b), b]],
          entryShape fs rf r := by
        intro r hr
        rcases List.mem_append.mp hr with hmem | hmem
        · exact hacc r hmem
        · have hr2 : r = [pyOrElse rf a, os_path_join fs (pyOrElse rf a ++ "." ++ b), b] := by
            simpa using hmem
          exact ⟨f, a, b, hsplit, hr2⟩
      simp only [processFiles, hsplit] at hout
      cases hmv : env.moveFails f with
      | some cause => rw [hmv] at hout; simp at hout
      | none =>
        simp only [hmv] at hout
        cases hks : env.keepsSource f with
        | false =>
          simp only [hks, Bool.false_eq_true, ite_false] at hout
          by_cases hc : (st.watch.erase f).contains f = true
          · rw [if_pos hc] at hout
            cases hrm : env.removeFails f with
            | none => simp only [hrm] at hout; exact ih _ _ _ _ hacc1 hout
            | some c2 => simp only [hrm] at hout; exact ih _ _ _ _ hacc1 hout
          · rw [if_neg hc] at hout
            exact ih _ _ _ _ hacc1 hout
        | true =>
          simp only [hks, ite_true] at hout
          by_cases hc : st.watch.contains f = true
          · rw [if_pos hc] at hout
            cases hrm : env.removeFails f with
            | none => simp only [hrm] at hout; exact ih _ _ _ _ hacc1 hout
            | some c2 => simp only [hrm] at hout; exact ih _ _ _ _ hacc1 hout
          · rw [if_neg hc] at hout
            exact ih _ _ _ _ hacc1 hout
    · simp [processFiles, hsplit] at hout

theorem matchingFiles_rsplit_two {env : WaitEnv} {ftc ext : String} {n : Nat} :
    ∀ f ∈ matchingFiles env ftc ext n, ∃ a b, pyRsplitDot (pyLower f) = [a, b] :=
  fun _ hf => pyRsplitDot_two_of_endswith (matchingFiles_endswith hf)

theorem waitLoop_found (env : WaitEnv) (ftc ext fs : String) (rf : Option String)
    (mx : Int) (lg : Bool) (n rem : Nat) (f : String) (fs2 : List String)
    (hm : matchingFiles env ftc ext n = f :: fs2) :
    waitLoop env ftc ext fs rf mx lg n rem =
      processFiles env ftc fs rf lg (f :: fs2) ⟨env.watchAt n, env.storage0⟩
        (logIf lg "wait_download_file"
          ("Found downloaded files: " ++ pyListRepr (f :: fs2)) false)
        [] := by
  cases rem <;> simp only [waitLoop, hm]

theorem waitLoop_empty_zero (env : WaitEnv) (ftc ext fs : String)
    (rf : Option String) (mx : Int) (lg : Bool) (n : Nat)
    (hm : matchingFiles env ftc ext n = []) :
    waitLoop env ftc ext fs rf mx lg n 0 =
      ⟨.error (.timeout "Timeout waiting for download"),
       logIf lg "wait_download_file"
         ("Timeout waiting for download after " ++ toString mx ++ " seconds") true,
       ⟨env.watchAt n, env.storage0⟩⟩ := by
  simp only [waitLoop, hm]

theorem waitLoop_empty_succ (env : WaitEnv) (ftc ext fs : String)
    (rf : Option String) (mx : Int) (lg : Bool) (n rem' : Nat)
    (hm : matchingFiles env ftc ext n = []) :
    waitLoop env ftc ext fs rf mx lg n (rem' + 1) =
      waitLoop env ftc ext fs rf mx lg (n + 1) rem' := by
  simp only [waitLoop, hm]

theorem waitLoop_shape (env : WaitEnv) (ftc ext fs : String)
    (rf : Option String) (mx : Int) (lg : Bool) :
    ∀ rem n out, (waitLoop env ftc ext fs rf mx lg n rem).result = .ok out →
      ∀ r ∈ out, entryShape fs rf r := by
  intro rem
  induction rem with
  | zero =>
    intro n out hout
    cases hm : matchingFiles env ftc ext n with
    | nil =>
      rw [waitLoop_empty_zero env ftc ext fs rf mx lg n hm] at hout
      simp at hout
    | cons f fs2 =>
      rw [waitLoop_found env ftc ext fs rf mx lg n 0 f fs2 hm] at hout
      exact processFiles_shape env ftc fs rf lg _ _ _ _ _ (by simp) hout
  | succ rem' ih =>
    intro n out hout
    cases hm : matchingFiles env ftc ext n with
    | nil =>
      rw [waitLoop_empty_succ env ftc ext fs rf mx lg n rem' hm] at hout
      exact ih (n + 1) out hout
    | cons f fs2 =>
      rw [waitLoop_found env ftc ext fs rf mx lg n (rem' + 1) f fs2 hm] at hout
      exact processFiles_shape env ftc fs rf lg _ _ _ _ _ (by simp) hout

theorem waitLoop_ne_unpack (env : WaitEnv) (ftc ext fs : String)
    (rf : Option String) (mx : Int) (lg : Bool) :
    ∀ rem n, (waitLoop env ftc ext fs rf mx lg n rem).result ≠ .error .unpackError := by
  intro rem
  induction rem with
  | zero =>
    intro n
    cases hm : matchingFiles env ftc ext n with
    | nil =>
      rw [waitLoop_empty_zero env ftc ext fs rf mx lg n hm]
      simp
    | cons f fs2 =>
      rw [waitLoop_found env ftc ext fs rf mx lg n 0 f fs2 hm]
      exact processFiles_ne_unpack env ftc fs rf lg _ _ _ _
        (hm ▸ matchingFiles_rsplit_two)
  | succ rem' ih =>
    intro n
    cases hm : matchingFiles env ftc ext n with
    | nil =>
      rw [waitLoop_empty_succ env ftc ext fs rf mx lg n rem' hm]
      exact ih (n + 1)
    | cons f fs2 =>
      rw [waitLoop_found env ftc ext fs rf mx lg n (rem' + 1) f fs2 hm]
      exact processFiles_ne_unpack env ftc fs rf lg _ _ _ _
        (hm ▸ matchingFiles_rsplit_two)

/-! Control-flow lemmas for `wait_download_file`, one per validation or
setup branch. -/

theorem wait_run (env : WaitEnv) (ftc ext fs : String) (rf : Option String)
    (mx : Int) (lg : Bool)
    (h1 : ¬(ftc = "" ∨ fs = "")) (h2 : ¬ ext = "")
    (h3 : os_makedirs env.watchKind ftc (env.createFails ftc) = none)
    (h4 : os_makedirs env.storageKind fs (env.createFails fs) = none) :
    wait_download_file env ftc ext fs rf mx lg =
      waitLoop env ftc (normalizeExt ext) fs rf mx lg 0 (timeoutPasses mx - 1) := by
  unfold wait_download_file
  rw [if_neg h1, if_neg h2]
  simp only [h3, h4]
  simp

theorem wait_empty_folder (env : WaitEnv) (ftc ext fs : String)
    (rf : Option String) (mx : Int) (lg : Bool) (h : ftc = "" ∨ fs = "") :
    wait_download_file env ftc ext fs rf mx lg =
      ⟨.error (.invalidArg "Folder paths cannot be empty"), [],
       ⟨env.watchAt 0, env.storage0⟩⟩ := by
  unfold wait_download_file
  rw [if_pos h]

theorem wait_empty_ext (env : WaitEnv) (ftc fs : String)
    (rf : Option String) (mx : Int) (lg : Bool) (h1 : ¬(ftc = "" ∨ fs = "")) :
    wait_download_file env ftc "" fs rf mx lg =
      ⟨.error (.invalidArg "Extension cannot be empty"), [],
       ⟨env.watchAt 0, env.storage0⟩⟩ := by
  unfold wait_download_file
  rw [if_neg h1, if_pos rfl]

theorem wait_makedirs_fail_watch (env : WaitEnv) (ftc ext fs : String)
    (rf : Option String) (mx : Int) (lg : Bool)
    (h1 : ¬(ftc = "" ∨ fs = "")) (h2 : ¬ ext = "") (e : String)
    (h3 : os_makedirs env.watchKind ftc (env.createFails ftc) = some e) :
    wait_download_file env ftc ext fs rf mx lg =
      ⟨.error (.ioError ("Failed to create folders: " ++ e)), [],
       ⟨env.watchAt 0, env.storage0⟩⟩ := by
  unfold wait_download_file
  rw [if_neg h1, if_neg h2]
  simp only [h3]

theorem wait_makedirs_fail_storage (env : WaitEnv) (ftc ext fs : String)
    (rf : Option String) (mx : Int) (lg : Bool)
    (h1 : ¬(ftc = "" ∨ fs = "")) (h2 : ¬ ext = "") (e : String)
    (h3 : os_makedirs env.watchKind ftc (env.createFails ftc) = none)
    (h4 : os_makedirs env.storageKind fs (env.createFails fs) = some e) :
    wait_download_file env ftc ext fs rf mx lg =
      ⟨.error (.ioError ("Failed to create folders: " ++ e)), [],
       ⟨env.watchAt 0, env.storage0⟩⟩ := by
  unfold wait_download_file
  rw [if_neg h1, if_neg h2]
  simp only [h3, h4]

theorem processFiles_cons_moveFail (env : WaitEnv) (ftc fs : String)
    (rf : Option String) (lg : Bool) (f : String) (rest : List String)
    (st : FsState) (log : List LogMsg) (acc : List (List String))
    (a b cause : String) (hab : pyRsplitDot (pyLower f) = [a, b])
    (hmv : env.moveFails f = some cause) :
    processFiles env ftc fs rf lg (f :: rest) st log acc =
      ⟨.error (.ioError cause),
       log ++ logIf lg "wait_download_file"
         ("Failed to move file " ++ os_path_join ftc f ++ ": " ++ cause) true,
       st⟩ := by
  simp only [processFiles, hab, hmv]

theorem processFiles_cons_removeFail (env : WaitEnv) (ftc fs : String)
    (rf : Option String) (lg : Bool) (f : String) (rest : List String)
    (st : FsState) (log : List LogMsg) (acc : List (List String))
    (a b cause : String) (hab : pyRsplitDot (pyLower f) = [a, b])
    (hmv : env.moveFails f = none) (hks : env.keepsSource f = true)
    (hct : st.watch.contains f = true) (hrm : env.removeFails f = some cause) :
    processFiles env ftc fs rf lg (f :: rest) st log acc =
      processFiles env ftc fs rf lg rest
        ⟨st.watch, storageSet st.storage (pyOrElse rf a ++ "." ++ b) (os_path_join ftc f)⟩
        (log ++ logIf lg "wait_download_file"
            ("Moved file from " ++ os_path_join ftc f ++ " to "
              ++ os_path_join fs (pyOrElse rf a ++ "." ++ b)) false
          ++ logIf lg "wait_download_file"
            ("Failed to remove file " ++ os_path_join ftc f ++ ": " ++ cause) true)
        (acc ++ [[pyOrElse rf a, os_path_join fs (pyOrElse rf a ++ "." ++ b), b]]) := by
  simp only [processFiles, hab, hmv, hks, ite_true]
  rw [if_pos hct]
  simp only [hrm]

theorem os_path_join_isabs {a : String} (b : String)
    (h : os_path_isabs a = true) : os_path_isabs (os_path_join a b) = true := by
  unfold os_path_join
  split
  · rename_i hb
    exact hb
  · split
    · rename_i ha
      rw [ha] at h
      exact absurd h (by decide)
    · split
      · exact startswith_slash_append b h
      · exact startswith_slash_append b (startswith_slash_append "/" h)

theorem wait_ext_congr (env : WaitEnv) (ftc fs : String) (rf : Option String)
    (mx : Int) (lg : Bool) {e₁ e₂ : String} (h1 : e₁ ≠ "") (h2 : e₂ ≠ "")
    (hn : normalizeExt e₁ = normalizeExt e₂) :
    wait_download_file env ftc e₁ fs rf mx lg
      = wait_download_file env ftc e₂ fs rf mx lg := by
  unfold wait_download_file
  by_cases hf : ftc = "" ∨ fs = ""
  · rw [if_pos hf, if_pos hf]
  · rw [if_neg hf, if_neg hf, if_neg h1, if_neg h2, hn]

theorem wait_shape (env : WaitEnv) (ftc ext fs : String) (rf : Option String)
    (mx : Int) (lg : Bool) (out : List (List String))
    (hout : (wait_download_file env ftc ext fs rf mx lg).result = .ok out) :
    ∀ r ∈ out, entryShape fs rf r := by
  by_cases h1 : ftc = "" ∨ fs = ""
  · rw [wait_empty_folder env ftc ext fs rf mx lg h1] at hout
    simp at hout
  · by_cases h2 : ext = ""
    · subst h2
      rw [wait_empty_ext env ftc fs rf mx lg h1] at hout
      simp at hout
    · cases hmk : os_makedirs env.watchKind ftc (env.createFails ftc) with
      | some e =>
        rw [wait_makedirs_fail_watch env ftc ext fs rf mx lg h1 h2 e hmk] at hout
        simp at hout
      | none =>
        cases hmk2 : os_makedirs env.storageKind fs (env.createFails fs) with
        | some e =>
          rw [wait_makedirs_fail_storage env ftc ext fs rf mx lg h1 h2 e hmk hmk2] at hout
          simp at hout
        | none =>
          rw [wait_run env ftc ext fs rf mx lg h1 h2 hmk hmk2] at hout
          exact waitLoop_shape env ftc (normalizeExt ext) fs rf mx lg _ 0 out hout

/-- A filesystem where the watched folder path names an existing regular
file (not a directory); everything else is healthy. -/
def badWatchEnv : WaitEnv :=
  ⟨.file, .dir, fun _ => none, fun _ => [], fun _ => true, [],
   fun _ => none, fun _ => false, fun _ => none⟩

/-- A filesystem where the storage folder path names an existing regular
file (not a directory); everything else is healthy. -/
def badStorageEnv : WaitEnv :=
  ⟨.dir, .file, fun _ => none, fun _ => [], fun _ => true, [],
   fun _ => none, fun _ => false, fun _ => none⟩

/-! The claims. -/

/-- C1: for every non-empty `watchDir` and `storageDir`, if a single file
named `report.PDF` is present in `watchDir`, then
`wait_download_file(watchDir, "pdf", storageDir, max_waiting_download=5)`
returns exactly `[["report", join(storageDir, "report.pdf"), "pdf"]]` (base
name and extension lowercased, extension stripped from the name), the
source file no longer exists in the watched directory, and the destination
file `report.pdf` exists in the storage directory. -/
theorem C1_single_report_pdf (watchDir storageDir : String) (hasLogger : Bool)
    (hw : watchDir ≠ "") (hs : storageDir ≠ "") :
    (wait_download_file (okEnv ["report.PDF"]) watchDir "pdf" storageDir
        none 5 hasLogger).result
      = .ok [["report", os_path_join storageDir "report.pdf", "pdf"]] ∧
    (wait_download_file (okEnv ["report.PDF"]) watchDir "pdf" storageDir
        none 5 hasLogger).fs.watch = [] ∧
    (wait_download_file (okEnv ["report.PDF"]) watchDir "pdf" storageDir
        none 5 hasLogger).fs.storage.map Prod.fst = ["report.pdf"] := by
  have h1 : ¬ (watchDir = "" ∨ storageDir = "") := by simp [hw, hs]
  refine ⟨?_, ?_, ?_⟩ <;>
    rw [wait_run (okEnv ["report.PDF"]) watchDir "pdf" storageDir none 5 hasLogger
      h1 (by decide) rfl rfl] <;>
    cases hasLogger <;> rfl

/-- Witness for C1 at `watchDir = "w"`, `storageDir = "s"`. -/
theorem C1_single_report_pdf_witness :
    (wait_download_file (okEnv ["report.PDF"]) "w" "pdf" "s" none 5 false).result
      = .ok [["report", os_path_join "s" "report.pdf", "pdf"]] ∧
    (wait_download_file (okEnv ["report.PDF"]) "w" "pdf" "s" none 5 false).fs.watch = [] ∧
    (wait_download_file (okEnv ["report.PDF"]) "w" "pdf" "s"
        none 5 false).fs.storage.map Prod.fst = ["report.pdf"] :=
  C1_single_report_pdf "w" "s" false (by decide) (by decide)

/-- C5: if no listing pass ever finds a matching file, the call fails with
the Timeout error once the accumulated waiting time (one fifth per empty
pass, checked only at pass boundaries) reaches `max_waiting_download`, and
the attached Logger receives an `isError = true` entry whose message
mentions the timeout and the `max_waiting_download` value. -/
theorem C5_timeout_error_and_log (env : WaitEnv) (watchDir ext storageDir : String)
    (rf : Option String) (mx : Int)
    (hw : watchDir ≠ "") (hs : storageDir ≠ "") (he : ext ≠ "")
    (hmk1 : os_makedirs env.watchKind watchDir (env.createFails watchDir) = none)
    (hmk2 : os_makedirs env.storageKind storageDir (env.createFails storageDir) = none)
    (hnm : ∀ n, matchingFiles env watchDir (normalizeExt ext) n = []) :
    (wait_download_file env watchDir ext storageDir rf mx true).result
      = .error (.timeout "Timeout waiting for download") ∧
    ∃ entry ∈ (wait_download_file env watchDir ext storageDir rf mx true).log,
      entry.isError = true ∧
      entry.message
        = "Timeout waiting for download after " ++ toString mx ++ " seconds" := by
  have h1 : ¬ (watchDir = "" ∨ storageDir = "") := by simp [hw, hs]
  rw [wait_run env watchDir ext storageDir rf mx true h1 he hmk1 hmk2,
      waitLoop_timeout env watchDir (normalizeExt ext) storageDir rf mx true hnm _ 0]
  exact ⟨rfl,
    ⟨"wait_download_file",
      "Timeout waiting for download after " ++ toString mx ++ " seconds", true⟩,
    by simp [logIf], rfl, rfl⟩

/-- Witness for C5: empty watched directory, `max_waiting_download = 1`. -/
theorem C5_timeout_error_and_log_witness :
    (wait_download_file (okEnv []) "w" "pdf" "s" none 1 true).result
      = .error (.timeout "Timeout waiting for download") ∧
    ∃ entry ∈ (wait_download_file (okEnv []) "w" "pdf" "s" none 1 true).log,
      entry.isError = true ∧
      entry.message
        = "Timeout waiting for download after " ++ toString (1 : Int) ++ " seconds" :=
  C5_timeout_error_and_log (okEnv []) "w" "pdf" "s" none 1
    (by decide) (by decide) (by decide) rfl rfl (fun _ => rfl)

/-- C9: a fresh Logger's table has zero rows and exactly the four columns
`[Date, Function, Message, IsError]` in that order; after one `log` call it
has exactly one row carrying the supplied function, message and error flag
with a non-null timestamp; rows of subsequent calls appear in append
order. -/
theorem C9_logger_table :
    Logger.empty.get_log_dataframe.rows = [] ∧
    Logger.empty.get_log_dataframe.columns = ["Date", "Function", "Message", "IsError"] ∧
    (∀ (now : Nat) (fn msg : String) (b : Bool),
      (Logger.empty.log now fn msg b).get_log_dataframe.rows = [(some now, fn, msg, b)] ∧
      (some now).isSome = true) ∧
    (∀ (l : Logger) (now : Nat) (fn msg : String) (b : Bool),
      (l.log now fn msg b).get_log_dataframe.rows
        = l.get_log_dataframe.rows ++ [(some now, fn, msg, b)]) := by
  refine ⟨rfl, rfl, fun now fn msg b => ⟨rfl, rfl⟩, fun l now fn msg b => ?_⟩
  simp [Logger.get_log_dataframe, Logger.log]

/-- C10: a name accepted by the matching filter (lowercased name ends with
a dot followed by the requested extension) always splits at its last dot
into exactly two components, so the two-way destructuring on line 124 is
total — including the edge name `.pdf`, whose base component is empty — and
no run of `wait_download_file` can fail with an unpacking error. -/
theorem C10_rsplit_total :
    (∀ f ext : String, ext ≠ "" → pyEndswith (pyLower f) ("." ++ ext) = true →
      ∃ a b, pyRsplitDot (pyLower f) = [a, b]) ∧
    pyRsplitDot (pyLower ".pdf") = ["", "pdf"] ∧
    (∀ (env : WaitEnv) (ftc ext fs : String) (rf : Option String) (mx : Int) (lg : Bool),
      (wait_download_file env ftc ext fs rf mx lg).result ≠ .error .unpackError) := by
  refine ⟨fun f ext _ h => pyRsplitDot_two_of_endswith h, by decide, ?_⟩
  intro env ftc ext fs rf mx lg
  by_cases h1 : ftc = "" ∨ fs = ""
  · rw [wait_empty_folder env ftc ext fs rf mx lg h1]
    simp
  · by_cases h2 : ext = ""
    · subst h2
      rw [wait_empty_ext env ftc fs rf mx lg h1]
      simp
    · cases hmk : os_makedirs env.watchKind ftc (env.createFails ftc) with
      | some e =>
        rw [wait_makedirs_fail_watch env ftc ext fs rf mx lg h1 h2 e hmk]
        simp
      | none =>
        cases hmk2 : os_makedirs env.storageKind fs (env.createFails fs) with
        | some e =>
          rw [wait_makedirs_fail_storage env ftc ext fs rf mx lg h1 h2 e hmk hmk2]
          simp
        | none =>
          rw [wait_run env ftc ext fs rf mx lg h1 h2 hmk hmk2]
          exact waitLoop_ne_unpack env ftc (normalizeExt ext) fs rf mx lg _ 0

/-- Witness for C10 at the concrete name `x.pdf` and a concrete run. -/
theorem C10_rsplit_total_witness :
    (∃ a b, pyRsplitDot (pyLower "x.pdf") = [a, b]) ∧
    (wait_download_file (okEnv ["x.pdf"]) "w" "pdf" "s" none 5 false).result
      ≠ .error .unpackError :=
  ⟨C10_rsplit_total.1 "x.pdf" "pdf" (by decide) (by decide),
   C10_rsplit_total.2.2 (okEnv ["x.pdf"]) "w" "pdf" "s" none 5 false⟩

/-- C3 counterexample: when the watched folder path names an existing
regular file, the call fails with the wrapped `os.makedirs` OSError
("Failed to create folders: ..."), not with the InvalidArgument error the
claim demands — `os.makedirs(..., exist_ok=True)` raises before the
`isdir` check on line 102 can run. -/
theorem C3_counterexample :
    (wait_download_file badWatchEnv "w" "pdf" "s" none 5 true).result
      = .error (.ioError "Failed to create folders: File exists: w") ∧
    (wait_download_file badWatchEnv "w" "pdf" "s" none 5 true).result
      ≠ .error (.invalidArg "Invalid folder paths") := by
  decide

/-- C3 (amended): for every call with non-empty arguments where the watched
or storage path names an existing non-directory, the call fails with an I/O
error (the directory-creation failure, wrapped as "Failed to create
folders: ..."), not with InvalidArgument: `os.makedirs` raises first, so
the not-a-directory `ValueError` check of lines 102-103 is unreachable. -/
theorem C3_nondir_raises_ioError (env : WaitEnv) (ftc ext fs : String)
    (rf : Option String) (mx : Int) (lg : Bool)
    (hw : ftc ≠ "") (hs : fs ≠ "") (he : ext ≠ "")
    (hkind : env.watchKind = .file ∨ env.storageKind = .file) :
    ∃ msg, (wait_download_file env ftc ext fs rf mx lg).result
      = .error (.ioError ("Failed to create folders: " ++ msg)) := by
  have h1 : ¬ (ftc = "" ∨ fs = "") := by simp [hw, hs]
  cases hmk : os_makedirs env.watchKind ftc (env.createFails ftc) with
  | some e =>
    exact ⟨e, by rw [wait_makedirs_fail_watch env ftc ext fs rf mx lg h1 he e hmk]⟩
  | none =>
    have hsk : env.storageKind = .file := by
      rcases hkind with hk | hk
      · rw [hk] at hmk
        simp [os_makedirs] at hmk
      · exact hk
    have hmk2 : os_makedirs env.storageKind fs (env.createFails fs)
        = some ("File exists: " ++ fs) := by
      rw [hsk]
      rfl
    exact ⟨"File exists: " ++ fs,
      by rw [wait_makedirs_fail_storage env ftc ext fs rf mx lg h1 he _ hmk hmk2]⟩

/-- Witness for the amended C3 with the storage path being a file. -/
theorem C3_nondir_raises_ioError_witness :
    ∃ msg, (wait_download_file badStorageEnv "w" "pdf" "s" none 5 false).result
      = .error (.ioError ("Failed to create folders: " ++ msg)) :=
  C3_nondir_raises_ioError badStorageEnv "w" "pdf" "s" none 5 false
    (by decide) (by decide) (by decide) (Or.inr rfl)

/-- C4 counterexample: with the relative storage directory `"storage"`, a
successful call returns `"storage/report.pdf"` as the path component, which
is not an absolute path. -/
theorem C4_counterexample :
    (wait_download_file (okEnv ["report.pdf"]) "w" "pdf" "storage" none 5 false).result
      = .ok [["report", "storage/report.pdf", "pdf"]] ∧
    os_path_isabs "storage/report.pdf" = false := by
  decide

/-- C4 (amended): the path component of every returned triple is the join
of `folder_storage` with the destination file name; it is an absolute path
whenever `folder_storage` itself is absolute. -/
theorem C4_result_path_absolute (env : WaitEnv) (ftc ext fs : String)
    (rf : Option String) (mx : Int) (lg : Bool) (out : List (List String))
    (habs : os_path_isabs fs = true)
    (hout : (wait_download_file env ftc ext fs rf mx lg).result = .ok out) :
    ∀ r ∈ out, ∃ nm p e, r = [nm, p, e] ∧ os_path_isabs p = true := by
  intro r hr
  obtain ⟨f, a, b, hab, hre⟩ := wait_shape env ftc ext fs rf mx lg out hout r hr
  exact ⟨_, _, _, hre, os_path_join_isabs _ habs⟩

/-- Witness for the amended C4 with the absolute storage directory `/st`. -/
theorem C4_result_path_absolute_witness :
    ∃ nm p e, (["report", os_path_join "/st" "report.pdf", "pdf"] : List String)
      = [nm, p, e] ∧ os_path_isabs p = true :=
  C4_result_path_absolute (okEnv ["report.pdf"]) "w" "pdf" "/st" none 5 false
    [["report", os_path_join "/st" "report.pdf", "pdf"]] (by decide) (by decide)
    ["report", os_path_join "/st" "report.pdf", "pdf"] (by simp)

/-- C8 counterexample: the invariance fails at the empty extension — the
call with `extension = ""` raises InvalidArgument while the call with
`"." ++ "" = "."` proceeds to polling and times out, a different outcome. -/
theorem C8_counterexample :
    (wait_download_file (okEnv []) "w" "" "s" none 1 false).result
      = .error (.invalidArg "Extension cannot be empty") ∧
    (wait_download_file (okEnv []) "w" "." "s" none 1 false).result
      = .error (.timeout "Timeout waiting for download") := by
  decide

/-- C8 (amended): for every non-empty extension `e`, calling with `e`, with
`"." ++ e`, or with any case variant of `e` produces the identical outcome
(same result or error, same log, same directory state), because the
extension is normalized by stripping leading dots and lowercasing; in
particular the file name `X.PDF` matches requested extension `"pdf"` and
also `".pdf"`. -/
theorem C8_ext_normalization (env : WaitEnv) (ftc fs : String)
    (rf : Option String) (mx : Int) (lg : Bool) :
    (∀ e : String, e ≠ "" →
      wait_download_file env ftc e fs rf mx lg
        = wait_download_file env ftc ("." ++ e) fs rf mx lg) ∧
    (∀ e₁ e₂ : String, e₁ ≠ "" → pyLower e₁ = pyLower e₂ →
      wait_download_file env ftc e₁ fs rf mx lg
        = wait_download_file env ftc e₂ fs rf mx lg) ∧
    pyEndswith (pyLower "X.PDF") ("." ++ normalizeExt "pdf") = true ∧
    pyEndswith (pyLower "X.PDF") ("." ++ normalizeExt ".pdf") = true := by
  refine ⟨?_, ?_, by decide, by decide⟩
  · intro e he
    have hne : ("." ++ e) ≠ "" := by
      intro hcon
      have hd := congrArg String.data hcon
      rw [data_append] at hd
      have hd2 : ('.' :: e.data : List Char) = [] := hd
      simp at hd2
    exact wait_ext_congr env ftc fs rf mx lg he hne (normalizeExt_dot e).symm
  · intro e₁ e₂ h1 hl
    have h2 : e₂ ≠ "" := by
      intro hcon
      exact h1 (pyLower_eq_empty_iff.mp (by rw [hl, hcon]; rfl))
    exact wait_ext_congr env ftc fs rf mx lg h1 h2 (normalizeExt_congr_lower hl)

/-- Witness for the amended C8: `"pdf"`, `".pdf"` and `"PDF"` all yield the
same outcome on a concrete run. -/
theorem C8_ext_normalization_witness :
    wait_download_file (okEnv ["x.pdf"]) "w" "pdf" "s" none 5 false
      = wait_download_file (okEnv ["x.pdf"]) "w" ".pdf" "s" none 5 false ∧
    wait_download_file (okEnv ["x.pdf"]) "w" "PDF" "s" none 5 false
      = wait_download_file (okEnv ["x.pdf"]) "w" "pdf" "s" none 5 false :=
  ⟨(C8_ext_normalization (okEnv ["x.pdf"]) "w" "s" none 5 false).1 "pdf" (by decide),
   (C8_ext_normalization (okEnv ["x.pdf"]) "w" "s" none 5 false).2.1 "PDF" "pdf"
     (by decide) (by decide)⟩

/-- C2 counterexample: a run that raises InvalidArgument (empty watched
folder path) while a Logger is supplied appends no log entry at all, so
this error path does not produce the one `isError = true` entry the claim
demands. -/
theorem C2_counterexample :
    (wait_download_file (okEnv []) "" "pdf" "s" none 5 true).result
      = .error (.invalidArg "Folder paths cannot be empty") ∧
    (wait_download_file (okEnv []) "" "pdf" "s" none 5 true).log = [] := by
  decide

/-- C2 (amended): with a Logger supplied, only the move IOFailure and the
Timeout error paths log an entry (exactly one, with `isError = true`,
describing that failure); the InvalidArgument validations (empty folder
paths, empty extension) and the directory-creation IOFailure — whether the
watched folder's or the storage folder's creation fails — raise without
appending any log entry. -/
theorem C2_error_logging :
    (∀ (env : WaitEnv) (ftc ext fs : String) (rf : Option String) (mx : Int),
      (ftc = "" ∨ fs = "") →
      (wait_download_file env ftc ext fs rf mx true).log = []) ∧
    (∀ (env : WaitEnv) (ftc fs : String) (rf : Option String) (mx : Int),
      ¬(ftc = "" ∨ fs = "") →
      (wait_download_file env ftc "" fs rf mx true).log = []) ∧
    (∀ (env : WaitEnv) (ftc ext fs : String) (rf : Option String) (mx : Int)
        (e : String),
      ¬(ftc = "" ∨ fs = "") → ext ≠ "" →
      os_makedirs env.watchKind ftc (env.createFails ftc) = some e →
      (wait_download_file env ftc ext fs rf mx true).log = []) ∧
    (∀ (env : WaitEnv) (ftc ext fs : String) (rf : Option String) (mx : Int)
        (e : String),
      ¬(ftc = "" ∨ fs = "") → ext ≠ "" →
      os_makedirs env.watchKind ftc (env.createFails ftc) = none →
      os_makedirs env.storageKind fs (env.createFails fs) = some e →
      (wait_download_file env ftc ext fs rf mx true).log = []) ∧
    (∀ (env : WaitEnv) (ftc ext fs : String) (rf : Option String) (mx : Int),
      ¬(ftc = "" ∨ fs = "") → ext ≠ "" →
      os_makedirs env.watchKind ftc (env.createFails ftc) = none →
      os_makedirs env.storageKind fs (env.createFails fs) = none →
      (∀ n, matchingFiles env ftc (normalizeExt ext) n = []) →
      (wait_download_file env ftc ext fs rf mx true).log
        = [⟨"wait_download_file",
            "Timeout waiting for download after " ++ toString mx ++ " seconds",
            true⟩]) ∧
    (∀ (env : WaitEnv) (ftc fs : String) (rf : Option String) (f : String)
        (rest : List String) (st : FsState) (log : List LogMsg)
        (acc : List (List String)) (a b cause : String),
      pyRsplitDot (pyLower f) = [a, b] → env.moveFails f = some cause →
      processFiles env ftc fs rf true (f :: rest) st log acc =
        ⟨.error (.ioError cause),
         log ++ [⟨"wait_download_file",
           "Failed to move file " ++ os_path_join ftc f ++ ": " ++ cause, true⟩],
         st⟩) := by
  refine ⟨?_, ?_, ?_, ?_, ?_, ?_⟩
  · intro env ftc ext fs rf mx h
    rw [wait_empty_folder env ftc ext fs rf mx true h]
  · intro env ftc fs rf mx h1
    rw [wait_empty_ext env ftc fs rf mx true h1]
  · intro env ftc ext fs rf mx e h1 h2 hmk
    rw [wait_makedirs_fail_watch env ftc ext fs rf mx true h1 h2 e hmk]
  · intro env ftc ext fs rf mx e h1 h2 hmk hmk2
    rw [wait_makedirs_fail_storage env ftc ext fs rf mx true h1 h2 e hmk hmk2]
  · intro env ftc ext fs rf mx h1 h2 hmk hmk2 hnm
    rw [wait_run env ftc ext fs rf mx true h1 h2 hmk hmk2,
        waitLoop_timeout env ftc (normalizeExt ext) fs rf mx true hnm _ 0]
    rfl
  · intro env ftc fs rf f rest st log acc a b cause hab hmv
    rw [processFiles_cons_moveFail env ftc fs rf true f rest st log acc a b cause hab hmv]
    rfl

/-- Witness for the amended C2 at concrete inputs for the validation part,
the storage-folder creation failure, and the timeout part. -/
theorem C2_error_logging_witness :
    (wait_download_file (okEnv []) "" "pdf" "s" none 5 true).log = [] ∧
    (wait_download_file badStorageEnv "w" "pdf" "s" none 5 true).log = [] ∧
    (wait_download_file (okEnv []) "w" "pdf" "s" none 1 true).log
      = [⟨"wait_download_file",
          "Timeout waiting for download after " ++ toString (1 : Int) ++ " seconds",
          true⟩] :=
  ⟨C2_error_logging.1 (okEnv []) "" "pdf" "s" none 5 (Or.inl rfl),
   C2_error_logging.2.2.2.1 badStorageEnv "w" "pdf" "s" none 5 ("File exists: " ++ "s")
     (by decide) (by decide) rfl rfl,
   C2_error_logging.2.2.2.2.1 (okEnv []) "w" "pdf" "s" none 1
     (by decide) (by decide) rfl rfl (fun _ => rfl)⟩

/-- C6 counterexample: with `replace_filename = ""` — a supplied rename —
and one matching file `a.csv`, the program uses the lowercased base name
`"a"` as the target, not the provided empty rename: line 126's truthiness
check (`replace_filename if replace_filename else downloaded_file_name`)
treats the empty string like `None`. -/
theorem C6_counterexample :
    (wait_download_file (okEnv ["a.csv"]) "w" "csv" "s" (some "") 5 false).result
      = .ok [["a", "s/a.csv", "csv"]] ∧
    (wait_download_file (okEnv ["a.csv"]) "w" "csv" "s" (some "") 5 false).result
      ≠ .ok [["", "s/.csv", "csv"]] := by
  decide

/-- C6 (amended): every result entry has target name `replace_filename`
when provided and non-empty — with `replace_filename` equal to `None` or to
the empty string (Python falsy) the lowercased base name is used — and
destination path `join(folder_storage, targetName ++ "." ++ extension)`; in
particular with `replace_filename = "final"` and one matching file `a.csv`
the result is `[["final", join(s, "final.csv"), "csv"]]`; and when two
matched files share the extension and a rename is requested, both map to
the same destination — the later move overwrites the earlier one (the
storage slot `final.csv` ends holding the second source) while one result
entry per matched file is still returned. -/
theorem C6_rename_and_overwrite :
    (∀ (env : WaitEnv) (ftc ext fs : String) (rf : Option String) (mx : Int)
        (lg : Bool) (out : List (List String)),
      (wait_download_file env ftc ext fs rf mx lg).result = .ok out →
      ∀ r ∈ out, entryShape fs rf r) ∧
    (wait_download_file (okEnv ["a.csv"]) "w" "csv" "s" (some "final") 5 false).result
      = .ok [["final", os_path_join "s" "final.csv", "csv"]] ∧
    (wait_download_file (okEnv ["a.csv", "b.csv"]) "w" "csv" "s"
        (some "final") 5 false).result
      = .ok [["final", os_path_join "s" "final.csv", "csv"],
             ["final", os_path_join "s" "final.csv", "csv"]] ∧
    (wait_download_file (okEnv ["a.csv", "b.csv"]) "w" "csv" "s"
        (some "final") 5 false).fs.storage
      = [("final.csv", os_path_join "w" "b.csv")] := by
  exact ⟨wait_shape, by decide, by decide, by decide⟩

/-- Witness for C6: the shape property instantiated on the concrete
single-file rename run. -/
theorem C6_rename_and_overwrite_witness :
    entryShape "s" (some "final") ["final", os_path_join "s" "final.csv", "csv"] :=
  C6_rename_and_overwrite.1 (okEnv ["a.csv"]) "w" "csv" "s" (some "final") 5 false
    [["final", os_path_join "s" "final.csv", "csv"]] (by decide)
    ["final", os_path_join "s" "final.csv", "csv"] (by simp)

/-- C7: during a processing pass, a failed move logs one error entry (when
a Logger is supplied) and re-raises the I/O error immediately, discarding
the remaining matched files of the pass; a failed post-move delete of a
still-present source logs one error entry but is swallowed — processing
continues with the remaining files and the move's result entry is kept. -/
theorem C7_move_aborts_remove_continues :
    (∀ (env : WaitEnv) (ftc fs : String) (rf : Option String) (lg : Bool)
        (f : String) (rest : List String) (st : FsState) (log : List LogMsg)
        (acc : List (List String)) (a b cause : String),
      pyRsplitDot (pyLower f) = [a, b] → env.moveFails f = some cause →
      processFiles env ftc fs rf lg (f :: rest) st log acc =
        ⟨.error (.ioError cause),
         log ++ logIf lg "wait_download_file"
           ("Failed to move file " ++ os_path_join ftc f ++ ": " ++ cause) true,
         st⟩) ∧
    (∀ (env : WaitEnv) (ftc fs : String) (rf : Option String) (lg : Bool)
        (f : String) (rest : List String) (st : FsState) (log : List LogMsg)
        (acc : List (List String)) (a b cause : String),
      pyRsplitDot (pyLower f) = [a, b] → env.moveFails f = none →
      env.keepsSource f = true → st.watch.contains f = true →
      env.removeFails f = some cause →
      processFiles env ftc fs rf lg (f :: rest) st log acc =
        processFiles env ftc fs rf lg rest
          ⟨st.watch, storageSet st.storage (pyOrElse rf a ++ "." ++ b) (os_path_join ftc f)⟩
          (log ++ logIf lg "wait_download_file"
              ("Moved file from " ++ os_path_join ftc f ++ " to "
                ++ os_path_join fs (pyOrElse rf a ++ "." ++ b)) false
            ++ logIf lg "wait_download_file"
              ("Failed to remove file " ++ os_path_join ftc f ++ ": " ++ cause) true)
          (acc ++ [[pyOrElse rf a, os_path_join fs (pyOrElse rf a ++ "." ++ b), b]])) :=
  ⟨fun env ftc fs rf lg f rest st log acc a b cause hab hmv =>
     processFiles_cons_moveFail env ftc fs rf lg f rest st log acc a b cause hab hmv,
   fun env ftc fs rf lg f rest st log acc a b cause hab hmv hks hct hrm =>
     processFiles_cons_removeFail env ftc fs rf lg f rest st log acc a b cause
       hab hmv hks hct hrm⟩

/-- A filesystem whose mover fails on `b.csv` (for the abort half) and
whose remover fails on `a.csv`, which the mover leaves behind (for the
swallow half). -/
def flakyEnv : WaitEnv :=
  ⟨.dir, .dir, fun _ => none, fun _ => ["a.csv", "b.csv"], fun _ => true, [],
   fun f => if f = "b.csv" then some "disk full" else none,
   fun f => f = "a.csv",
   fun f => if f = "a.csv" then some "locked" else none⟩

/-- Witness for C7: both step equations instantiated on `flakyEnv`. -/
theorem C7_move_aborts_remove_continues_witness :
    processFiles flakyEnv "w" "s" none true ["b.csv"] ⟨["b.csv"], []⟩ [] [] =
      ⟨.error (.ioError "disk full"),
       [] ++ logIf true "wait_download_file"
         ("Failed to move file " ++ os_path_join "w" "b.csv" ++ ": " ++ "disk full") true,
       ⟨["b.csv"], []⟩⟩ ∧
    processFiles flakyEnv "w" "s" none true ["a.csv", "b.csv"]
        ⟨["a.csv", "b.csv"], []⟩ [] [] =
      processFiles flakyEnv "w" "s" none true ["b.csv"]
        ⟨["a.csv", "b.csv"],
         storageSet [] (pyOrElse (none : Option String) "a" ++ "." ++ "csv")
           (os_path_join "w" "a.csv")⟩
        ([] ++ logIf true "wait_download_file"
            ("Moved file from " ++ os_path_join "w" "a.csv" ++ " to "
              ++ os_path_join "s" (pyOrElse (none : Option String) "a" ++ "." ++ "csv")) false
          ++ logIf true "wait_download_file"
            ("Failed to remove file " ++ os_path_join "w" "a.csv" ++ ": " ++ "locked") true)
        ([] ++ [[pyOrElse (none : Option String) "a",
          os_path_join "s" (pyOrElse (none : Option String) "a" ++ "." ++ "csv"), "csv"]]) :=
  ⟨C7_move_aborts_remove_continues.1 flakyEnv "w" "s" none true "b.csv" []
     ⟨["b.csv"], []⟩ [] [] "b" "csv" "disk full" (by decide) (by decide),
   C7_move_aborts_remove_continues.2 flakyEnv "w" "s" none true "a.csv" ["b.csv"]
     ⟨["a.csv", "b.csv"], []⟩ [] [] "a" "csv" "locked" (by decide) (by decide)
     (by decide) (by decide) (by decide)⟩

end SbfiKnimeUtils
